import Mathlib

set_option maxHeartbeats 1000000
set_option maxRecDepth 8000

/-!
Shallow embedding of the `@import-af/monday` package
(`src/packages/monday/index.js`) of the Import-AF/pipedream-libs
repository, together with theorems settling the frozen claims about it.

Modelling conventions, used throughout:
* JavaScript values are modelled by `JsValue`, the JSON data universe
  (null, booleans, numbers as exact rationals, strings, arrays, objects).
  `undefined` is represented by `Option JsValue = none` at API borders
  (property lookup, path resolution); inside stored data only JSON values
  occur.  JavaScript numbers are modelled as exact rationals; the binary
  floating-point rounding of the runtime is not modelled (no claim
  depends on it).
* Property access models own data properties of JSON values: object
  keys, array element indices and `length`, and string character
  indices and `length` (all of which are own properties in JavaScript).
  Inherited prototype members (methods such as `toString`) are not
  modelled as properties.
* Thrown exceptions are modelled with `Except JsErr`; `JsErr.typeError`
  stands for a thrown `TypeError`.  Error message strings are
  descriptive, not byte-identical to V8's texts.
* String methods (`trim`, `toLowerCase`, `split`, `replace`, `includes`)
  are re-implemented over character lists; `toLowerCase` is ASCII-only
  and `trim` uses the standard whitespace predicate, both adequate for
  every input appearing in the claims.
-/

/-- JavaScript/JSON values: the data universe handled by the package. -/
inductive JsValue where
  | vNull
  | vBool (b : Bool)
  | vNum (q : ℚ)
  | vStr (s : String)
  | vArr (elems : List JsValue)
  | vObj (fields : List (String × JsValue))

/-- Thrown JavaScript errors, as far as the claims need them. -/
inductive JsErr where
  | typeError (msg : String)
  | jsError (msg : String)

/-- Message text carried by a thrown error (`error.message`). -/
def JsErr.message : JsErr → String
  | .typeError m => m
  | .jsError m => m

/-- JavaScript truthiness of a JSON value. -/
def JsValue.truthy : JsValue → Bool
  | .vNull => false
  | .vBool b => b
  | .vNum q => q ≠ 0
  | .vStr s => s ≠ ""
  | .vArr _ => true
  | .vObj _ => true

/-- Test whether a value is exactly `null`. -/
def JsValue.isNull : JsValue → Bool
  | .vNull => true
  | _ => false

/-- Test whether a value is the given string (JavaScript `===` with a
string literal). -/
def JsValue.isStrVal : JsValue → String → Bool
  | .vStr s, t => s = t
  | _, _ => false

/-- Test whether a value is the number zero (JavaScript `=== 0`). -/
def JsValue.isZero : JsValue → Bool
  | .vNum q => q = 0
  | _ => false

/-- First-match lookup in an association list; models reading a key of a
JavaScript object (whose keys are unique) or of a `Map`. -/
def alGet {κ α : Type} [DecidableEq κ] : List (κ × α) → κ → Option α
  | [], _ => none
  | (k0, v) :: rest, k => if k0 = k then some v else alGet rest k

/-- Update-or-append in an association list: JavaScript assignment
`o[k] = v` on an object, or `Map.set`, both of which overwrite an
existing key in place and append a fresh key at the end. -/
def alSet {κ α : Type} [DecidableEq κ] : List (κ × α) → κ → α → List (κ × α)
  | [], k, v => [(k, v)]
  | (k0, v0) :: rest, k, v =>
      if k0 = k then (k, v) :: rest else (k0, v0) :: alSet rest k v

/-- Remove a key from an association list (`Map.delete`, `delete o[k]`). -/
def alRemove {κ α : Type} [DecidableEq κ] : List (κ × α) → κ → List (κ × α)
  | [], _ => []
  | (k0, v) :: rest, k =>
      if k0 = k then alRemove rest k else (k0, v) :: alRemove rest k

/-- ASCII lower-casing of one character (model of `toLowerCase`). -/
def asciiLower (c : Char) : Char :=
  if 'A' ≤ c ∧ c ≤ 'Z' then Char.ofNat (c.toNat + 32) else c

/-- Model of `String.prototype.toLowerCase` (ASCII range). -/
def jsToLower (s : String) : String :=
  String.mk (s.data.map asciiLower)

/-- Drop leading whitespace from a character list. -/
def dropWs (cs : List Char) : List Char :=
  cs.dropWhile Char.isWhitespace

/-- Model of `String.prototype.trim`. -/
def jsTrim (s : String) : String :=
  String.mk ((dropWs ((dropWs s.data.reverse).reverse)))

/-- Does the text start with the pattern (both as character lists)? -/
def chStartsWith : List Char → List Char → Bool
  | [], _ => true
  | _ :: _, [] => false
  | p :: ps, c :: cs => p = c && chStartsWith ps cs

/-- Model of `String.prototype.startsWith` with a string argument. -/
def jsStartsWith (s pat : String) : Bool :=
  chStartsWith pat.data s.data

/-- Substring occurrence over character lists. -/
def chIncludes (pat : List Char) : List Char → Bool
  | [] => chStartsWith pat []
  | c :: cs => chStartsWith pat (c :: cs) || chIncludes pat cs

/-- Model of `String.prototype.includes`. -/
def strIncludes (s pat : String) : Bool :=
  chIncludes pat.data s.data

/-- Split a character list at every occurrence of a separator; always
returns at least one (possibly empty) piece, like `String.split`. -/
def splitChars (sep : Char) : List Char → List (List Char)
  | [] => [[]]
  | c :: cs =>
      if c = sep then [] :: splitChars sep cs
      else
        match splitChars sep cs with
        | [] => [[c]]
        | t :: ts => (c :: t) :: ts

/-- Model of `String.prototype.split` with a one-character separator. -/
def jsSplit (sep : Char) (s : String) : List String :=
  (splitChars sep s.data).map String.mk

/-- Digits value of a decimal digit list (most significant first). -/
def digitsToNat (cs : List Char) : Nat :=
  cs.foldl (fun acc c => acc * 10 + (c.toNat - '0'.toNat)) 0

/-- Canonical array index test: JavaScript exposes array elements under
the canonical decimal string of their index. -/
def isCanonicalIndex (s : String) : Bool :=
  match s.data with
  | [] => false
  | ['0'] => true
  | c :: cs => c ≠ '0' && (c :: cs).all Char.isDigit

/-- Normalised rational addition, written through `mkRat` so that
concrete computations unfold definitionally. -/
def ratAdd (a b : ℚ) : ℚ :=
  mkRat (a.num * (b.den : Int) + b.num * (a.den : Int)) (a.den * b.den)

/-- Normalised rational multiplication through `mkRat`. -/
def ratMul (a b : ℚ) : ℚ :=
  mkRat (a.num * b.num) (a.den * b.den)

/-- Scale a non-negative rational to an integer numerator over the
smallest power of ten (used to print terminating decimals the way
JavaScript prints them, without trailing zeros). -/
def ratScaleNum (q : ℚ) : Option (Nat × Nat) :=
  (List.range 31).findSome? fun k =>
    let m : ℚ := ratMul q (mkRat (10 ^ k) 1)
    if m.den = 1 ∧ 0 ≤ m.num then some (m.num.toNat, k) else none

/-- Left-pad a numeral with zeros to the given width. -/
def padZeros (s : String) (n : Nat) : String :=
  String.mk (List.replicate (n - s.length) '0') ++ s

/-- Decimal rendering of a non-negative rational with terminating
decimal expansion (falls back to "0" on non-terminating input, which
never arises from values parsed out of decimal notation). -/
def jsNumToStringNN (q : ℚ) : String :=
  match ratScaleNum q with
  | some (n, 0) => Nat.repr n
  | some (n, k + 1) =>
      Nat.repr (n / 10 ^ (k + 1)) ++ "." ++ padZeros (Nat.repr (n % 10 ^ (k + 1))) (k + 1)
  | none => "0"

/-- Model of JavaScript number-to-string conversion for the rationals
appearing in this development. -/
def jsNumToString (q : ℚ) : String :=
  if q < 0 then "-" ++ jsNumToStringNN (-q) else jsNumToStringNN q

mutual

/-- Model of `String(value)`: total string conversion of a JSON value
(arrays join their elements with commas, eliding nulls; objects print
as "[object Object]"). -/
def jsToString : JsValue → String
  | .vNull => "null"
  | .vBool true => "true"
  | .vBool false => "false"
  | .vNum q => jsNumToString q
  | .vStr s => s
  | .vArr xs => String.intercalate "," (jsToStringElems xs)
  | .vObj _ => "[object Object]"

/-- Element-wise conversion used by array-to-string (nulls print empty,
as `Array.prototype.join` specifies). -/
def jsToStringElems : List JsValue → List String
  | [] => []
  | x :: xs => (if x.isNull then "" else jsToString x) :: jsToStringElems xs

end

/-- Model of `value.toString()`: like `String(value)` but a thrown
`TypeError` on `null` (and `undefined`), which has no such method. -/
def jsToStringMethod (v : JsValue) : Except JsErr String :=
  match v with
  | .vNull => .error (.typeError "Cannot read properties of null (reading toString)")
  | u => .ok (jsToString u)

/-- Own data property lookup; `none` models `undefined`.  Objects have
their keys; arrays have their element indices and `length`; strings
have their character indices and `length` (`[5]["length"]` is `1`,
`""["length"]` is `0`, `"ab"["0"]` is `"a"` — all own properties in
JavaScript).  Numbers, booleans and null have no own properties.
String `length` and indexing are counted in characters here rather
than UTF-16 code units, which agrees on all ASCII data. -/
def propGetOpt : JsValue → String → Option JsValue
  | .vObj fs, k => alGet fs k
  | .vArr xs, k =>
      if k = "length" then some (.vNum (mkRat xs.length 1))
      else if isCanonicalIndex k then xs.get? (digitsToNat k.data)
      else none
  | .vStr s, k =>
      if k = "length" then some (.vNum (mkRat s.data.length 1))
      else if isCanonicalIndex k then
        (s.data.get? (digitsToNat k.data)).map fun c => .vStr (String.mk [c])
      else none
  | _, _ => none

/-- Escape quotes and backslashes inside a JSON string literal. -/
def jsonEscape (s : String) : String :=
  String.mk (s.data.foldr
    (fun c acc => if c = '"' ∨ c = '\\' then '\\' :: c :: acc else c :: acc) [])

mutual

/-- Model of `JSON.stringify` on JSON values (no indentation argument,
as used in this package). -/
def jsonStringify : JsValue → String
  | .vNull => "null"
  | .vBool true => "true"
  | .vBool false => "false"
  | .vNum q => jsNumToString q
  | .vStr s => "\"" ++ jsonEscape s ++ "\""
  | .vArr xs => "[" ++ String.intercalate "," (jsonStringifyElems xs) ++ "]"
  | .vObj fs =>
      "\x7b" ++ String.intercalate "," (jsonStringifyMembers fs) ++ "\x7d"

/-- Stringify each element of a JSON array. -/
def jsonStringifyElems : List JsValue → List String
  | [] => []
  | x :: xs => jsonStringify x :: jsonStringifyElems xs

/-- Stringify each member of a JSON object. -/
def jsonStringifyMembers : List (String × JsValue) → List String
  | [] => []
  | (k, v) :: fs =>
      ("\"" ++ jsonEscape k ++ "\":" ++ jsonStringify v) :: jsonStringifyMembers fs

end

/-- Parse the body of a JSON string literal (escapes beyond the quote
itself are not modelled; no claim exercises them). -/
def jpString : List Char → Option (String × List Char)
  | [] => none
  | c :: cs =>
      if c = '"' then some ("", cs)
      else (jpString cs).map fun r => (String.mk (c :: r.1.data), r.2)

/-- Parse a JSON number (integer or fixed-point fraction). -/
def jpNumber (cs : List Char) : Option (ℚ × List Char) :=
  let p := match cs with
    | '-' :: r => (true, r)
    | _ => (false, cs)
  let ds := p.2.takeWhile Char.isDigit
  let cs2 := p.2.dropWhile Char.isDigit
  if ds.isEmpty then none
  else
    let intPart : ℚ := mkRat (digitsToNat ds) 1
    match cs2 with
    | '.' :: r =>
        let fs := r.takeWhile Char.isDigit
        let cs3 := r.dropWhile Char.isDigit
        if fs.isEmpty then none
        else
          let q := ratAdd intPart (mkRat (digitsToNat fs) (10 ^ fs.length))
          some (if p.1 then -q else q, cs3)
    | _ => some (if p.1 then -intPart else intPart, cs2)

mutual

/-- Fuel-indexed JSON value parse (model of `JSON.parse`, exponents and
string escapes omitted; the fuel at the call site exceeds the token
count of any input it is applied to). -/
def jpValue : Nat → List Char → Option (JsValue × List Char)
  | 0, _ => none
  | fuel + 1, cs =>
      match dropWs cs with
      | [] => none
      | c :: rest =>
          if c = 'n' then
            if chStartsWith ['u', 'l', 'l'] rest then some (.vNull, rest.drop 3) else none
          else if c = 't' then
            if chStartsWith ['r', 'u', 'e'] rest then some (.vBool true, rest.drop 3) else none
          else if c = 'f' then
            if chStartsWith ['a', 'l', 's', 'e'] rest then some (.vBool false, rest.drop 4) else none
          else if c = '"' then
            (jpString rest).map fun r => (.vStr r.1, r.2)
          else if c = '[' then
            match dropWs rest with
            | ']' :: r2 => some (.vArr [], r2)
            | _ => jpElems fuel rest []
          else if c = '\x7b' then
            match dropWs rest with
            | '\x7d' :: r2 => some (.vObj [], r2)
            | _ => jpMembers fuel rest []
          else
            (jpNumber (c :: rest)).map fun r => (.vNum r.1, r.2)

/-- Parse the comma-separated elements of a JSON array. -/
def jpElems : Nat → List Char → List JsValue → Option (JsValue × List Char)
  | 0, _, _ => none
  | fuel + 1, cs, acc =>
      match jpValue fuel cs with
      | none => none
      | some (v, cs2) =>
          match dropWs cs2 with
          | ',' :: r => jpElems fuel r (acc ++ [v])
          | ']' :: r => some (.vArr (acc ++ [v]), r)
          | _ => none

/-- Parse the members of a JSON object. -/
def jpMembers : Nat → List Char → List (String × JsValue) → Option (JsValue × List Char)
  | 0, _, _ => none
  | fuel + 1, cs, acc =>
      match dropWs cs with
      | '"' :: r =>
          match jpString r with
          | none => none
          | some (k, cs2) =>
              match dropWs cs2 with
              | ':' :: cs3 =>
                  match jpValue fuel cs3 with
                  | none => none
                  | some (v, cs4) =>
                      match dropWs cs4 with
                      | ',' :: r2 => jpMembers fuel r2 (acc ++ [(k, v)])
                      | '\x7d' :: r2 => some (.vObj (acc ++ [(k, v)]), r2)
                      | _ => none
              | _ => none
      | _ => none

end

/-- Model of `JSON.parse`: `none` models the thrown `SyntaxError`
(callers in this package only ever catch it). -/
def jsonParse (s : String) : Option JsValue :=
  match jpValue (4 * s.data.length + 4) s.data with
  | some (v, rest) => if (dropWs rest).isEmpty then some v else none
  | none => none

/-- Is there a dot in the list that is followed by at least one more
character?  Applied to the tail of the mail domain, this decides the
`[^\s@]+\.[^\s@]+` part of the e-mail pattern. -/
def innerDotFrom : List Char → Bool
  | [] => false
  | '.' :: _ :: _ => true
  | _ :: rest => innerDotFrom rest

/-- Decide the e-mail pattern of the source
(`^[^\s@]+@[^\s@]+\.[^\s@]+$`): no whitespace, exactly one `@` with a
non-empty local part, and a dot inside the domain with at least one
character on each side. -/
def emailRegexTest (s : String) : Bool :=
  let cs := s.data
  (!cs.any Char.isWhitespace) &&
  (match splitChars '@' cs with
   | [localPart, domain] =>
       (!localPart.isEmpty) &&
       (match domain with
        | [] => false
        | _ :: rest => innerDotFrom rest)
   | _ => false)

/-- Model of `sanitizeText` (also used for `long_text` columns). -/
def sanitizeText (value : JsValue) : Except JsErr JsValue :=
  if value.isNull then .ok .vNull
  else do
    let s ← jsToStringMethod value
    pure (.vStr (jsTrim s))

/-- Model of `sanitizeEmail`. -/
def sanitizeEmail (value : JsValue) : Except JsErr JsValue :=
  if value.isNull then .ok .vNull
  else
    match value with
    | .vStr s =>
        if s = "" then .ok (.vObj [("email", .vStr ""), ("text", .vStr "")])
        else
          let sanitizedEmail := jsToLower (jsTrim s)
          .ok (.vObj
            [("email", .vStr (if emailRegexTest sanitizedEmail then sanitizedEmail else "")),
             ("text", .vStr sanitizedEmail)])
    | _ => .ok (.vObj [("email", .vStr ""), ("text", .vStr "")])

/-- Model of `sanitizePhone`. -/
def sanitizePhone (value : JsValue) : Except JsErr JsValue :=
  if value.isNull then .ok .vNull
  else if !value.truthy then
    .ok (.vObj [("phone", .vStr ""), ("countryShortName", .vStr "US")])
  else do
    let s ← jsToStringMethod value
    pure (.vObj [("phone", .vStr (String.mk (s.data.filter Char.isDigit))),
                 ("countryShortName", .vStr "US")])

/-- Model of `parseInt(s, 10)` on an all-digit candidate string. -/
def parseIntModel (cs : List Char) : Option ℚ :=
  if cs.isEmpty then none else some (mkRat (digitsToNat cs) 1)

/-- Model of `parseFloat` on a candidate made of digits and at most one
dot (the shape reaching it inside `sanitizeNumbers`). -/
def parseFloatModel (cs : List Char) : Option ℚ :=
  let intDigits := cs.takeWhile Char.isDigit
  let rest := cs.dropWhile Char.isDigit
  match rest with
  | '.' :: frac =>
      let fracDigits := frac.takeWhile Char.isDigit
      if intDigits.isEmpty ∧ fracDigits.isEmpty then none
      else some (ratAdd (mkRat (digitsToNat intDigits) 1)
        (mkRat (digitsToNat fracDigits) (10 ^ fracDigits.length)))
  | [] => if intDigits.isEmpty then none else some (mkRat (digitsToNat intDigits) 1)
  | _ => none

/-- Model of `sanitizeNumbers`: keeps digits and dots, remembers a
leading minus of the trimmed text, collapses extra dots into the first
one, parses as integer or float, null when nothing numeric remains. -/
def sanitizeNumbers (value : JsValue) : Except JsErr JsValue :=
  if value.isNull then .ok .vNull
  else if value.isStrVal "" then .ok .vNull
  else
    match value with
    | .vObj _ => .ok .vNull
    | v =>
        let strValue := jsToString v
        let isNegative := jsStartsWith (jsTrim strValue) "-"
        let filtered := strValue.data.filter fun c => c.isDigit || c = '.'
        if filtered.isEmpty then .ok .vNull
        else
          let parts := splitChars '.' filtered
          let collapsed :=
            if parts.length > 2 then
              parts.headI ++ ['.'] ++ parts.tail.foldr (· ++ ·) []
            else filtered
          let numOpt :=
            if collapsed.contains '.' then parseFloatModel collapsed
            else parseIntModel collapsed
          match numOpt with
          | none => .ok .vNull
          | some q => .ok (.vNum (if isNegative then -q else q))

/-- ISO `YYYY-MM-DD` prefix test (simplified stand-in for the runtime
date parser: only ISO date strings are recognised). -/
def isoDatePrefix (cs : List Char) : Bool :=
  match cs with
  | y1 :: y2 :: y3 :: y4 :: '-' :: m1 :: m2 :: '-' :: d1 :: d2 :: rest =>
      [y1, y2, y3, y4, m1, m2, d1, d2].all Char.isDigit &&
      (rest.isEmpty || rest.headI = 'T')
  | _ => false

/-- Simplified model of `new Date(value)` + `toISOString().split('T')[0]`:
the recognised dates are ISO `YYYY-MM-DD` strings (optionally with a
time part); everything else counts as an invalid date.  No claim
evaluates date parsing on other inputs. -/
def jsDateParse : JsValue → Option String
  | .vStr s => if isoDatePrefix s.data then some (String.mk (s.data.take 10)) else none
  | _ => none

/-- Model of `sanitizeDate`. -/
def sanitizeDate (value : JsValue) : Except JsErr JsValue :=
  if value.isNull then .ok .vNull
  else if !value.truthy then .ok (.vObj [("date", .vNull)])
  else
    match jsDateParse value with
    | none => .ok (.vObj [("date", .vNull)])
    | some d => .ok (.vObj [("date", .vStr d)])

/-- Model of `sanitizeStatus`. -/
def sanitizeStatus (value : JsValue) : Except JsErr JsValue :=
  if value.isNull then .ok .vNull
  else if !value.truthy then .ok (.vObj [("label", .vStr "")])
  else do
    let s ← jsToStringMethod value
    pure (.vObj [("label", .vStr (jsTrim s))])

/-- Model of `sanitizeDropdown`.  Note the array branch converts every
element with `.toString()`, which throws a `TypeError` on a null
element. -/
def sanitizeDropdown (value : JsValue) : Except JsErr JsValue :=
  if value.isNull then .ok .vNull
  else if !value.truthy then .ok (.vObj [("labels", .vArr [])])
  else
    match value with
    | .vArr xs => do
        let strs ← xs.mapM fun x => do
          let s ← jsToStringMethod x
          pure (jsTrim s)
        pure (.vObj [("labels", .vArr (((strs.filter (· ≠ "")).map JsValue.vStr)))])
    | .vStr s =>
        let labels := ((jsSplit ',' s).map jsTrim).filter (· ≠ "")
        .ok (.vObj [("labels", .vArr (labels.map JsValue.vStr))])
    | v => do
        let s ← jsToStringMethod v
        pure (.vObj [("labels", .vArr [.vStr (jsTrim s)])])

/-- Model of `sanitizeCheckbox`. -/
def sanitizeCheckbox (value : JsValue) : Except JsErr JsValue :=
  if value.isNull then .ok .vNull
  else .ok (.vObj [("checked", .vBool value.truthy)])

/-- JavaScript `a || b` over possibly-undefined operands. -/
def jsOr (a b : Option JsValue) : Option JsValue :=
  match a with
  | some x => if x.truthy then some x else b
  | none => b

/-- Shared tail of `sanitizeLocation` after the JSON-parse attempt: the
`typeof value === 'object'` branch.  A parsed `null` reaches the `lat`
read and throws, like the source. -/
def sanitizeLocationObj (value : JsValue) : Except JsErr JsValue :=
  match value with
  | .vNull => .error (.typeError "Cannot read properties of null (reading lat)")
  | .vObj _ =>
      let latv := jsOr (propGetOpt value "lat") (propGetOpt value "latitude")
      let lngv := jsOr (propGetOpt value "lng") (propGetOpt value "longitude")
      match latv, lngv with
      | some la, some ln =>
          if la.truthy ∧ ln.truthy then do
            let las ← jsToStringMethod la
            let lns ← jsToStringMethod ln
            let addr := match propGetOpt value "address" with
              | some a => if a.truthy then a else .vStr ""
              | none => .vStr ""
            pure (.vObj [("lat", .vStr las), ("lng", .vStr lns), ("address", addr)])
          else .ok .vNull
      | _, _ => .ok .vNull
  | .vArr _ =>
      .ok .vNull
  | _ => .ok .vNull

/-- Model of `sanitizeLocation`. -/
def sanitizeLocation (value : JsValue) : Except JsErr JsValue :=
  if value.isNull then .ok .vNull
  else
    match value with
    | .vStr s =>
        match jsonParse s with
        | none => .ok (.vObj [("address", .vStr s)])
        | some parsed => sanitizeLocationObj parsed
    | v => sanitizeLocationObj v

/-- Model of `sanitizeBoardRelation`.  A truthy non-array `item_ids`
member has no `.map` and throws; a null element throws in
`.toString()`. -/
def sanitizeBoardRelation (value : JsValue) : Except JsErr JsValue :=
  if value.isNull then .ok .vNull
  else if !value.truthy then .ok .vNull
  else
    match propGetOpt value "item_ids" with
    | none => .ok .vNull
    | some ids =>
        if !ids.truthy then .ok .vNull
        else
          match ids with
          | .vArr xs => do
              let strs ← xs.mapM jsToStringMethod
              pure (.vObj [("item_ids", .vArr (strs.map JsValue.vStr))])
          | _ => .error (.typeError "value.item_ids.map is not a function")

/-- Model of `MondayDynamicMapper.sanitizeValueForColumnType`: dispatch
on the column type name; unknown types pass the value through. -/
def sanitizeValueForColumnType (value : JsValue) (columnType : String) : Except JsErr JsValue :=
  if columnType = "text" then sanitizeText value
  else if columnType = "long_text" then sanitizeText value
  else if columnType = "email" then sanitizeEmail value
  else if columnType = "phone" then sanitizePhone value
  else if columnType = "numbers" then sanitizeNumbers value
  else if columnType = "date" then sanitizeDate value
  else if columnType = "status" then sanitizeStatus value
  else if columnType = "dropdown" then sanitizeDropdown value
  else if columnType = "checkbox" then sanitizeCheckbox value
  else if columnType = "location" then sanitizeLocation value
  else if columnType = "board_relation" then sanitizeBoardRelation value
  else .ok value

/-- One Field Rule of a Mapping Configuration (`MappingConfig` shape in
the source): the core keys read by the engine plus a side map for the
arbitrary extra properties the source preserves verbatim.  A missing
`value` key and a `value: null` behave identically in every consumer
(both are falsy and both hit the null/undefined guard of each
sanitizer), so `value` is a plain `JsValue` defaulting to null. -/
structure FieldRule where
  remote_key : Option String := none
  in_monday : Bool := true
  in_remote : Bool := true
  value : JsValue := .vNull
  extra : List (String × JsValue) := []

/-- One `reduce` step of `getNestedValue`:
`current && current[key] !== undefined ? current[key] : undefined`. -/
def nestedStep (current : Option JsValue) (key : String) : Option JsValue :=
  match current with
  | none => none
  | some c => if c.truthy then propGetOpt c key else none

/-- Model of `MondayDynamicMapper.getNestedValue`: resolve a
dot-separated path with `reduce`, where a falsy intermediate or a
missing/undefined member stops resolution with `undefined` (`none`). -/
def getNestedValue (obj : JsValue) (path : String) : Option JsValue :=
  (jsSplit '.' path).foldl nestedStep (some obj)

/-- Spec-side path walk, written from the claim's words: succeeds
exactly when every segment exists and is non-undefined at every level,
with no truthiness guard.  Compared with `getNestedValue` it refutes
the claimed equivalence: at `{a: ""}` and path `a.length` this walk
succeeds with `0` while the code's guarded reduce stops. -/
def specResolve : JsValue → List String → Option JsValue
  | c, [] => some c
  | c, k :: ks =>
      match propGetOpt c k with
      | none => none
      | some v => specResolve v ks

/-- Guarded path walk, written from the amended claim's words:
resolution proceeds exactly while the current value is truthy and the
next segment is a defined property, and stops undefined otherwise. -/
def guardedResolve : JsValue → List String → Option JsValue
  | c, [] => some c
  | c, k :: ks =>
      if c.truthy then
        match propGetOpt c k with
        | none => none
        | some v => guardedResolve v ks
      else none

/-- Truthiness of the `remote_key` option (`configData.remote_key`
is truthy exactly when it is a non-empty string). -/
def remoteKeySet : Option String → Bool
  | none => false
  | some p => p ≠ ""

/-- Per-entry body of `populateConfigValues`: shallow-copy the rule and
overwrite `value` when `in_remote` holds, `remote_key` is set and the
path resolves to a defined value. -/
def populateRule (externalData : JsValue) (r : FieldRule) : FieldRule :=
  if r.in_remote ∧ remoteKeySet r.remote_key then
    match r.remote_key with
    | some p =>
        (match getNestedValue externalData p with
         | some v => { r with value := v }
         | none => r)
    | none => r
  else r

/-- Model of `MondayDynamicMapper.populateConfigValues` as a pure map
over the entries (the reference-level copy discipline is modelled
separately by `populateConfigValuesH`). -/
def populateConfigValues (mappingConfig : List (String × FieldRule))
    (externalData : JsValue) : List (String × FieldRule) :=
  mappingConfig.map fun e => (e.1, populateRule externalData e.2)

/-- Column Descriptor stored in a board's Schema Map (the fields the
mapper keeps at `columnMap.set`). -/
structure ColumnInfo where
  id : String
  title : String
  type : String
  settings_str : String
deriving DecidableEq

/-- A raw board column as returned by the Gateway's schema query. -/
structure BoardColumn where
  id : String
  title : String
  type : String
  description : String
  settings_str : String
deriving DecidableEq

/-- The Column Descriptor the mapper registers for a board column. -/
def colInfoOf (c : BoardColumn) : ColumnInfo :=
  { id := c.id, title := c.title, type := c.type, settings_str := c.settings_str }

/-- Scanner for the tag pattern of the source
(`/\{+([^{}]+)\}+/g`): all non-overlapping, leftmost matches of
one-or-more opening braces, a non-empty brace-free run, then
one-or-more closing braces.  Returns the full match texts. -/
def tagScanF : Nat → List Char → List (List Char)
  | 0, _ => []
  | fuel + 1, cs =>
      match cs with
      | [] => []
      | c :: rest =>
          if c = '\x7b' then
            let bs := (c :: rest).takeWhile (fun x => x = '\x7b')
            let afterB := (c :: rest).dropWhile (fun x => x = '\x7b')
            let body := afterB.takeWhile (fun x => !(x = '\x7b' || x = '\x7d'))
            let afterBody := afterB.dropWhile (fun x => !(x = '\x7b' || x = '\x7d'))
            let cls := afterBody.takeWhile (fun x => x = '\x7d')
            let afterCls := afterBody.dropWhile (fun x => x = '\x7d')
            if body.isEmpty || cls.isEmpty then tagScanF fuel rest
            else (bs ++ body ++ cls) :: tagScanF fuel afterCls
          else tagScanF fuel rest

/-- Tag matches of a description (fuel bounded by the text length, so
never exhausted: every recursive step consumes at least one input
character). -/
def tagScan (cs : List Char) : List (List Char) :=
  tagScanF (cs.length + 1) cs

/-- Strip the leading run of `{` and the trailing run of `}` from a
match (the source's `match.replace(/^\{+|\}+$/g, '')`). -/
def stripBraces (cs : List Char) : List Char :=
  ((cs.dropWhile (fun x => x = '\x7b')).reverse.dropWhile (fun x => x = '\x7d')).reverse

/-- Tags extracted from one column description. -/
def extractTags (description : String) : List String :=
  (tagScan description.data).map fun m => String.mk (stripBraces m)

/-- Build a board's Schema Map from its columns: register every tag of
every description; `Map.set` semantics make a later column overwrite an
earlier one on tag collision. -/
def buildColumnMap (columns : List BoardColumn) : List (String × ColumnInfo) :=
  columns.foldl
    (fun columnMap column =>
      (extractTags column.description).foldl
        (fun m tag => alSet m tag (colInfoOf column)) columnMap)
    []

/-- Payload-building core of `MondayDynamicMapper.processMapping`,
with the board's Schema Map passed in as the resolved schema (the
schema fetch itself is the Schema Cache, modelled separately by
`fetchBoardColumnSettings`): populate the configuration from the
external data, then, for each entry enabled for Monday whose key
matches a tag, sanitize by column type and keep non-null results. -/
def processMappingCore (mappingConfig : List (String × FieldRule))
    (externalData : JsValue) (columnMap : List (String × ColumnInfo)) :
    Except JsErr (List (String × JsValue)) :=
  let populatedConfig := populateConfigValues mappingConfig externalData
  populatedConfig.foldlM
    (fun columnValues e =>
      let configKey := e.1
      let configData := e.2
      if !configData.in_monday then pure columnValues
      else
        match alGet columnMap configKey with
        | none => pure columnValues
        | some columnInfo => do
            let sanitizedValue ← sanitizeValueForColumnType configData.value columnInfo.type
            if !sanitizedValue.isNull then
              pure (alSet columnValues columnInfo.id sanitizedValue)
            else pure columnValues)
    []

/-- State of a `MondayApiClient` as far as `getBoardColumns` is
concerned: its own `board_columns` cache plus a count of the remote
schema queries actually issued. -/
structure ClientState where
  board_columns : List (String × List BoardColumn)
  queryCount : Nat

/-- Model of `MondayApiClient.getBoardColumns` on the successful path,
with the remote board schema supplied by the oracle `remote`: a board
already in `board_columns` is served from that cache with no remote
query; otherwise one query is issued and its columns stored. -/
def getBoardColumns (remote : String → List BoardColumn)
    (st : ClientState) (boardId : String) : List BoardColumn × ClientState :=
  match alGet st.board_columns boardId with
  | some cols => (cols, st)
  | none =>
      let cols := remote boardId
      (cols, { board_columns := alSet st.board_columns boardId cols,
               queryCount := st.queryCount + 1 })

/-- State of a `MondayDynamicMapper` together with its client:
the mapper-level `columnSettingsCache` plus a count of the calls the
mapper has made into `getBoardColumns`. -/
structure MapperState where
  client : ClientState
  columnSettingsCache : List (String × List (String × ColumnInfo))
  gbcCalls : Nat

/-- A freshly constructed client and mapper. -/
def mapperInit : MapperState :=
  { client := { board_columns := [], queryCount := 0 },
    columnSettingsCache := [], gbcCalls := 0 }

/-- Model of `MondayDynamicMapper.fetchBoardColumnSettings` on the
successful path: serve `board_<id>` from the mapper cache, else call
`getBoardColumns`, build the tag map and cache it. -/
def fetchBoardColumnSettings (remote : String → List BoardColumn)
    (st : MapperState) (boardId : String) :
    List (String × ColumnInfo) × MapperState :=
  let cacheKey := "board_" ++ boardId
  match alGet st.columnSettingsCache cacheKey with
  | some m => (m, st)
  | none =>
      let r := getBoardColumns remote st.client boardId
      let columnMap := buildColumnMap r.1
      (columnMap,
       { client := r.2,
         columnSettingsCache := alSet st.columnSettingsCache cacheKey columnMap,
         gbcCalls := st.gbcCalls + 1 })

/-- Model of `MondayDynamicMapper.clearColumnCache`: with a truthy
board id delete that board's entry, else clear the whole cache. -/
def clearColumnCache (st : MapperState) (boardId : Option String) : MapperState :=
  match boardId with
  | some b =>
      if b ≠ "" then
        { st with columnSettingsCache := alRemove st.columnSettingsCache ("board_" ++ b) }
      else { st with columnSettingsCache := [] }
  | none => { st with columnSettingsCache := [] }

/-- A heap of Field Rule objects, for stating what the engine mutates:
addresses are allocation order, `next` is the next fresh address. -/
structure RuleHeap where
  mem : List (Nat × FieldRule)
  next : Nat

/-- Read a rule object from the heap. -/
def heapRead (h : RuleHeap) (r : Nat) : Option FieldRule :=
  alGet h.mem r

/-- Overwrite a rule object in the heap. -/
def heapWrite (h : RuleHeap) (r : Nat) (v : FieldRule) : RuleHeap :=
  { h with mem := alSet h.mem r v }

/-- Allocate a fresh rule object. -/
def heapAlloc (h : RuleHeap) (v : FieldRule) : Nat × RuleHeap :=
  (h.next, { mem := alSet h.mem h.next v, next := h.next + 1 })

/-- One entry of the reference-level model of `populateConfigValues`:
the entry's rule object is read, shallow-copied into a fresh object
(`{ ...configData }`), and the `value` assignment is performed on the
copy, whose address is returned.  Dangling references never occur in
the source (configuration entries are live objects); reading one here
falls back to a default rule. -/
def populateEntryH (h : RuleHeap) (r : Nat) (externalData : JsValue) :
    RuleHeap × Nat :=
  let rule := (heapRead h r).getD {}
  let a := heapAlloc h rule
  let h2 :=
    if rule.in_remote ∧ remoteKeySet rule.remote_key then
      match rule.remote_key with
      | some p =>
          (match getNestedValue externalData p with
           | some v => heapWrite a.2 a.1 { rule with value := v }
           | none => a.2)
      | none => a.2
    else a.2
  (h2, a.1)

/-- Reference-level model of `populateConfigValues`, making the object
copies explicit: returns the final heap and the populated
configuration's entries (keys paired with the fresh copy
addresses). -/
def populateConfigValuesH (h : RuleHeap) (cfg : List (String × Nat))
    (externalData : JsValue) : RuleHeap × List (String × Nat) :=
  match cfg with
  | [] => (h, [])
  | (k, r) :: rest =>
      let e := populateEntryH h r externalData
      let tail := populateConfigValuesH e.1 rest externalData
      (tail.1, (k, e.2) :: tail.2)

/-- One remote GraphQL error entry (`result.errors[i]`). -/
structure RemoteError where
  message : String
deriving DecidableEq

/-- A parsed GraphQL response body (`result`). -/
structure GraphQLResult where
  rdata : Option JsValue
  errors : List RemoteError

/-- The error object `MondayApiClient.query` constructs for a GraphQL
error response: message, the retryable marking (the source sets
`code = 'COMPLEXITY_ERROR'` for complexity / rate-limit texts), and
the preserved partial data and error list. -/
structure GraphQLError where
  message : String
  retryable : Bool
  edata : Option JsValue
  errors : List RemoteError

/-- The GraphQL-error check of `MondayApiClient.query` (source lines
196-215): a non-empty top-level error list becomes a thrown error
carrying the remote errors and partial data, marked retryable when the
first error's text contains "complexity" or "rate limit"
case-insensitively. -/
def processQueryResult (result : GraphQLResult) :
    Except GraphQLError GraphQLResult :=
  match result.errors with
  | [] => .ok result
  | e0 :: _ =>
      let errorMsg := jsToLower e0.message
      .error
        { message := "Monday GraphQL error: " ++ e0.message,
          retryable := strIncludes errorMsg "complexity" || strIncludes errorMsg "rate limit",
          edata := result.rdata,
          errors := result.errors }

/-- Model of `withRetry` as shipped: the wrapped attempt's exception is
caught, logged and slept on, and the wrapper then returns `undefined`
instead of rethrowing (the retry loop is commented out in the source),
so the caller's promise resolves. -/
def withRetrySwallow {ε α : Type} : Except ε α → Option α
  | .ok a => some a
  | .error _ => none

/-- Model of `MondayApiClient.query` applied to a parsed response body:
the GraphQL check runs inside `withRetry`, so a thrown error is
swallowed and the operation resolves with `undefined` (`none`). -/
def queryRun (result : GraphQLResult) : Option GraphQLResult :=
  withRetrySwallow (processQueryResult result)

/-- The destructured `errorData` argument of `logError`.  Fields the
source destructures with defaults get the same defaults; string-typed
fields model the string inputs the function is documented for. -/
structure ErrorData where
  projectName : String
  clientName : String
  workflow : String
  error : String
  description : Option String := none
  errorType : String := "dev"
  clientWarnEmail : Option String := none
  payload : Option JsValue := none

/-- The constructed error name
`projectName - clientName - workflow - error`. -/
def errorNameOf (ed : ErrorData) : String :=
  ed.projectName ++ " - " ++ ed.clientName ++ " - " ++ ed.workflow ++ " - " ++ ed.error

/-- JavaScript `d || errorName` for the optional description. -/
def descOr (d : Option String) (errorName : String) : String :=
  match d with
  | some s => if s ≠ "" then s else errorName
  | none => errorName

/-- The `payload` column text:
`typeof payload === 'string' ? payload : JSON.stringify(payload || \x7b\x7d)`. -/
def payloadValue (p : Option JsValue) : String :=
  match p with
  | some (.vStr s) => s
  | some v => jsonStringify (if v.truthy then v else .vObj [])
  | none => jsonStringify (.vObj [])

/-- The eight fixed column assignments `workingColumns.<key>.value = x`
performed by `logError` before its try block, in source order. -/
def assignmentsOf (ed : ErrorData) (errorName : String) : List (String × JsValue) :=
  [("client", .vStr (if ed.clientName ≠ "" then ed.clientName else "À configurer")),
   ("client_warn_email", .vStr (ed.clientWarnEmail.getD "")),
   ("description", .vStr (descOr ed.description errorName)),
   ("erreur", .vStr errorName),
   ("payload", .vStr (payloadValue ed.payload)),
   ("workflow", .vStr ed.workflow),
   ("projet", .vStr (if ed.projectName ≠ "" then ed.projectName else "À configurer")),
   ("error_type", .vStr ed.errorType)]

/-- One assignment `o[k].value = x` in sloppy mode: reading `k` off
null throws; setting `value` on a missing or null member throws a
`TypeError`; setting it on a primitive member is silently ignored (a
member that is an array is treated the same way here, arrays carrying
extra named properties being outside the JSON data model); setting it
on an object member updates that member in place. -/
def setMemberValue (o : JsValue) (k : String) (x : JsValue) : Except JsErr JsValue :=
  match o with
  | .vNull => .error (.typeError ("Cannot read properties of null (reading " ++ k ++ ")"))
  | .vObj fs =>
      match alGet fs k with
      | none => .error (.typeError "Cannot set properties of undefined (setting value)")
      | some .vNull => .error (.typeError "Cannot set properties of null (setting value)")
      | some (.vObj mf) => .ok (.vObj (alSet fs k (.vObj (alSet mf "value" x))))
      | some _ => .ok (.vObj fs)
  | _ => .error (.typeError "Cannot set properties of undefined (setting value)")

/-- Run a sequence of `o[k].value = x` assignments left to right. -/
def assignAll : JsValue → List (String × JsValue) → Except JsErr JsValue
  | o, [] => .ok o
  | o, (k, x) :: rest => do
      let o2 ← setMemberValue o k x
      assignAll o2 rest

/-- Property read that throws on null (plain `v.k` access). -/
def propGetE (v : JsValue) (k : String) : Except JsErr (Option JsValue) :=
  match v with
  | .vNull => .error (.typeError ("Cannot read properties of null (reading " ++ k ++ ")"))
  | u => .ok (propGetOpt u k)

/-- JavaScript `x || ""` on a possibly-undefined read. -/
def orEmptyStr (x : Option JsValue) : JsValue :=
  match x with
  | some v => if v.truthy then v else .vStr ""
  | none => .vStr ""

/-- Optional-chained property read `x?.k`. -/
def optChainProp (x : Option JsValue) (k : String) : Option JsValue :=
  match x with
  | none => none
  | some .vNull => none
  | some u => propGetOpt u k

/-- The column-value building loop of `logError`: walk the working
columns in insertion order, skip entries without a truthy `monday_id`,
skip mirror columns, sanitize numbers columns, skip falsy non-zero
values, and key the payload by the column's Monday id. -/
def buildColumnValues (workingColumns : JsValue) :
    Except JsErr (List (String × JsValue)) :=
  match workingColumns with
  | .vObj fs =>
      fs.foldlM
        (fun columnValues e => do
          let column := e.2
          let idRead ← propGetE column "monday_id"
          let mondayColId := orEmptyStr idRead
          let typeRead ← propGetE column "monday_type"
          let mondayColType := orEmptyStr typeRead
          let valueRead ← propGetE column "value"
          let mondayVal0 := orEmptyStr valueRead
          if !mondayColId.truthy then pure columnValues
          else if mondayColType.isStrVal "mirror" then pure columnValues
          else do
            let mondayVal ←
              if mondayColType.isStrVal "numbers" then sanitizeNumbers mondayVal0
              else pure mondayVal0
            if !mondayVal.truthy && !mondayVal.isZero then pure columnValues
            else pure (alSet columnValues (jsToString mondayColId) mondayVal))
        []
  | _ => .ok []

/-- The record `logError` resolves with. -/
structure LogResult where
  monday_id : JsValue
  error : String
  description : String

/-- The Gateway's `createItem`, as the external collaborator the error
logger calls: board id, item name and column values in, a parsed
response (or a thrown error) out. -/
def GatewayFn : Type :=
  String → String → List (String × JsValue) → Except JsErr JsValue

/-- The pre-Gateway phase of `logError`: the deep clone of `columns`
(the JSON round-trip is the identity on JSON data), the eight fixed
`value` assignments on the clone, then the column-value building
loop.  Everything here runs before the try block. -/
def buildPhase (columns : JsValue) (ed : ErrorData) :
    Except JsErr (List (String × JsValue)) := do
  let workingColumns ← assignAll columns (assignmentsOf ed (errorNameOf ed))
  buildColumnValues workingColumns

/-- The try/catch tail of `logError`: call the Gateway, read
`response.data?.create_item?.id`, default the id to `0`, mark unsaved
records in the name; any exception in the block is caught and turned
into the degraded `***ERROR SAVING TO MONDAY` record. -/
def tryPhase (gw : GatewayFn) (boardId : String) (errorName : String)
    (columnValues : List (String × JsValue)) (ed : ErrorData) : LogResult :=
  match (do
      let response ← gw boardId errorName columnValues
      let d ← propGetE response "data"
      pure (optChainProp (optChainProp d "create_item") "id")
      : Except JsErr (Option JsValue)) with
  | .error e =>
      { monday_id := .vNum 0,
        error := "***ERROR SAVING TO MONDAY - " ++ errorName,
        description := "Failed to save: " ++ e.message }
  | .ok idv =>
      let mondayId : JsValue :=
        match idv with
        | some v => if v.truthy then v else .vNum 0
        | none => .vNum 0
      let finalErrorName :=
        if mondayId.truthy then errorName
        else "***NOT SAVED IN MONDAY - " ++ errorName
      { monday_id := mondayId, error := finalErrorName,
        description := descOr ed.description errorName }

/-- Model of `MondayErrorLogger.logError`: the pre-Gateway phase (whose
exceptions propagate to the caller, there being no surrounding try),
then the guarded Gateway call.  The second component counts the
Gateway invocations made. -/
def logErrorRun (gw : GatewayFn) (boardId : String) (columns : JsValue)
    (ed : ErrorData) : Except JsErr LogResult × Nat :=
  match buildPhase columns ed with
  | .error e => (.error e, 0)
  | .ok columnValues =>
      (.ok (tryPhase gw boardId (errorNameOf ed) columnValues ed), 1)

/-- Lookup after update-or-append: the updated key reads back the new
value, every other key is unchanged. -/
theorem alGet_alSet {κ α : Type} [DecidableEq κ] (l : List (κ × α)) (k k2 : κ) (v : α) :
    alGet (alSet l k v) k2 = if k2 = k then some v else alGet l k2 := by
  induction l with
  | nil =>
      by_cases h : k2 = k
      · subst h; simp [alSet, alGet]
      · simp [alSet, alGet, h, Ne.symm h]
  | cons e rest ih =>
      obtain ⟨k0, v0⟩ := e
      by_cases h0 : k0 = k
      · subst h0
        by_cases h2 : k2 = k0
        · subst h2; simp [alSet, alGet]
        · simp [alSet, alGet, h2, Ne.symm h2]
      · by_cases h2 : k0 = k2
        · subst h2
          simp [alSet, alGet, h0]
        · simp [alSet, alGet, h0, h2, ih]

/-- Folding `alSet` over keys not containing `t` leaves `t` alone. -/
theorem alGet_foldl_set_not_mem {α : Type} (tags : List String) (v : α)
    (m : List (String × α)) (t : String) (ht : t ∉ tags) :
    alGet (tags.foldl (fun m2 tag => alSet m2 tag v) m) t = alGet m t := by
  induction tags generalizing m with
  | nil => rfl
  | cons a as ih =>
      have hna : t ≠ a := fun h => ht (h ▸ List.mem_cons_self a as)
      have hnas : t ∉ as := fun h => ht (List.mem_cons_of_mem a h)
      simp only [List.foldl]
      rw [ih _ hnas, alGet_alSet]
      simp [hna]

/-- Folding `alSet` over keys containing `t` registers the value at `t`. -/
theorem alGet_foldl_set_mem {α : Type} (tags : List String) (v : α)
    (m : List (String × α)) (t : String) (ht : t ∈ tags) :
    alGet (tags.foldl (fun m2 tag => alSet m2 tag v) m) t = some v := by
  induction tags generalizing m with
  | nil => cases ht
  | cons a as ih =>
      simp only [List.foldl]
      by_cases h : t ∈ as
      · exact ih _ h
      · have hta : t = a := by
          rcases List.mem_cons.mp ht with h1 | h1
          · exact h1
          · exact absurd h1 h
        rw [alGet_foldl_set_not_mem as v _ t h, alGet_alSet]
        simp [hta]

/-- Lookup through an entry-wise map of the values. -/
theorem alGet_map {α β : Type} (l : List (String × α)) (f : α → β) (k : String) :
    alGet (l.map fun e => (e.1, f e.2)) k = (alGet l k).map f := by
  induction l with
  | nil => rfl
  | cons e rest ih =>
      obtain ⟨k0, v0⟩ := e
      by_cases h : k0 = k
      · simp [alGet, h]
      · simp [alGet, h, ih]

/-- An undefined accumulator stays undefined through the `reduce`. -/
theorem foldl_nestedStep_none (segs : List String) :
    segs.foldl nestedStep none = none := by
  induction segs with
  | nil => rfl
  | cons k ks ih => simpa [List.foldl, nestedStep] using ih

/-- The `reduce` of `getNestedValue` computes exactly the recursive
truthiness-guarded walk. -/
theorem foldl_nestedStep_eq_guardedResolve (segs : List String) (c : JsValue) :
    segs.foldl nestedStep (some c) = guardedResolve c segs := by
  induction segs generalizing c with
  | nil => rfl
  | cons k ks ih =>
      simp only [List.foldl, guardedResolve]
      by_cases ht : c.truthy = true
      · cases hp : propGetOpt c k with
        | none =>
            have hstep : nestedStep (some c) k = none := by
              simp [nestedStep, ht, hp]
            rw [hstep, foldl_nestedStep_none]
            simp [ht, hp]
        | some v =>
            have hstep : nestedStep (some c) k = some v := by
              simp [nestedStep, ht, hp]
            rw [hstep, ih]
            simp [ht, hp]
      · have hstep : nestedStep (some c) k = none := by
          simp [nestedStep, ht]
        rw [hstep, foldl_nestedStep_none]
        simp [ht]

/-- Path resolution agrees with the guarded walk over the split
segments. -/
theorem getNestedValue_eq_guardedResolve (obj : JsValue) (p : String) :
    getNestedValue obj p = guardedResolve obj (jsSplit '.' p) :=
  foldl_nestedStep_eq_guardedResolve (jsSplit '.' p) obj

/-- Populating one entry bumps the allocation counter by one. -/
theorem populateEntryH_next (h : RuleHeap) (r : Nat) (ext : JsValue) :
    (populateEntryH h r ext).1.next = h.next + 1 := by
  simp only [populateEntryH, heapAlloc, heapWrite]
  split
  · split
    · split <;> rfl
    · rfl
  · rfl

/-- Populating one entry only writes at the fresh address, so every
previously allocated object reads back unchanged. -/
theorem populateEntryH_read (h : RuleHeap) (r : Nat) (ext : JsValue)
    (r2 : Nat) (hr2 : r2 < h.next) :
    heapRead (populateEntryH h r ext).1 r2 = heapRead h r2 := by
  have hne : r2 ≠ h.next := Nat.ne_of_lt hr2
  simp only [populateEntryH, heapAlloc, heapWrite, heapRead]
  split
  · split
    · split <;> (simp only [alGet_alSet]; simp [hne])
    · simp only [alGet_alSet]; simp [hne]
  · simp only [alGet_alSet]; simp [hne]

/-- The populate pass never rewrites an object allocated before it
started. -/
theorem populateH_reads_preserved (cfg : List (String × Nat)) (h : RuleHeap)
    (ext : JsValue) (r : Nat) (hr : r < h.next) :
    heapRead (populateConfigValuesH h cfg ext).1 r = heapRead h r := by
  induction cfg generalizing h with
  | nil => rfl
  | cons e rest ih =>
      show heapRead (populateConfigValuesH (populateEntryH h e.2 ext).1 rest ext).1 r = _
      rw [ih (populateEntryH h e.2 ext).1
            (by rw [populateEntryH_next]; exact Nat.lt_succ_of_lt hr)]
      exact populateEntryH_read h e.2 ext r hr

/-- A successful member-`value` assignment on an object keeps the
object an object with the same set of present keys. -/
theorem setMemberValue_ok_obj (fs : List (String × JsValue)) (k : String)
    (x o2 : JsValue) (h : setMemberValue (.vObj fs) k x = .ok o2) :
    (∃ fs2, o2 = .vObj fs2 ∧ ∀ k2, (alGet fs2 k2 = none ↔ alGet fs k2 = none))
    ∧ alGet fs k ≠ none := by
  simp only [setMemberValue] at h
  cases hk : alGet fs k with
  | none => rw [hk] at h; cases h
  | some m =>
      rw [hk] at h
      refine ⟨?_, by simp [hk]⟩
      cases m with
      | vNull => cases h
      | vObj mf =>
          cases h
          refine ⟨_, rfl, fun k2 => ?_⟩
          rw [alGet_alSet]
          by_cases h2 : k2 = k
          · subst h2; simp [hk]
          · simp [h2]
      | vBool b => cases h; exact ⟨fs, rfl, fun _ => Iff.rfl⟩
      | vNum q => cases h; exact ⟨fs, rfl, fun _ => Iff.rfl⟩
      | vStr s => cases h; exact ⟨fs, rfl, fun _ => Iff.rfl⟩
      | vArr xs => cases h; exact ⟨fs, rfl, fun _ => Iff.rfl⟩

/-- A failed member-`value` assignment always fails with a
`TypeError`. -/
theorem setMemberValue_error_type (o : JsValue) (k : String) (x : JsValue)
    (e : JsErr) (h : setMemberValue o k x = .error e) :
    ∃ m, e = .typeError m := by
  cases o with
  | vObj fs =>
      simp only [setMemberValue] at h
      cases hk : alGet fs k with
      | none => rw [hk] at h; cases h; exact ⟨_, rfl⟩
      | some m =>
          rw [hk] at h
          cases m with
          | vNull => cases h; exact ⟨_, rfl⟩
          | vObj mf => cases h
          | vBool b => cases h
          | vNum q => cases h
          | vStr s => cases h
          | vArr xs => cases h
  | vNull => cases h; exact ⟨_, rfl⟩
  | vBool b => cases h; exact ⟨_, rfl⟩
  | vNum q => cases h; exact ⟨_, rfl⟩
  | vStr s => cases h; exact ⟨_, rfl⟩
  | vArr xs => cases h; exact ⟨_, rfl⟩

/-- Running the assignment sequence on an object that is missing one of
the assigned keys throws a `TypeError`. -/
theorem assignAll_missing (steps : List (String × JsValue))
    (fs : List (String × JsValue)) (k : String)
    (hk : k ∈ steps.map Prod.fst) (hm : alGet fs k = none) :
    ∃ m, assignAll (.vObj fs) steps = .error (.typeError m) := by
  induction steps generalizing fs with
  | nil => simp at hk
  | cons st rest ih =>
      obtain ⟨k1, x⟩ := st
      cases hs : setMemberValue (.vObj fs) k1 x with
      | error e =>
          obtain ⟨m, rfl⟩ := setMemberValue_error_type _ _ _ _ hs
          refine ⟨m, ?_⟩
          simp only [assignAll, hs]
          rfl
      | ok o2 =>
          obtain ⟨⟨fs2, rfl, hkeys⟩, hpresent⟩ := setMemberValue_ok_obj fs k1 x o2 hs
          have hk2 : k ∈ rest.map Prod.fst := by
            rcases (by simpa using hk : k = k1 ∨ ∃ y, (k, y) ∈ rest) with h1 | ⟨y, h1⟩
            · exact absurd (h1 ▸ hm) hpresent
            · exact List.mem_map.mpr ⟨(k, y), h1, rfl⟩
          obtain ⟨m, hmm⟩ := ih fs2 hk2 ((hkeys k).mpr hm)
          refine ⟨m, ?_⟩
          simp only [assignAll, hs]
          show assignAll (JsValue.vObj fs2) rest = _
          exact hmm

/-- Configuration of the `processMapping` example: one `client_id`
entry pulling `Customer.Id` from the remote record. -/
def exampleConfig : List (String × FieldRule) :=
  [("client_id", { remote_key := some "Customer.Id", in_monday := true, in_remote := true })]

/-- External data of the `processMapping` example. -/
def exampleExternal : JsValue :=
  .vObj [("Customer", .vObj [("Id", .vStr "42")])]

/-- Schema Map of the `processMapping` example: tag `client_id` bound
to a text column `col1`. -/
def exampleSchema : List (String × ColumnInfo) :=
  [("client_id", { id := "col1", title := "", type := "text", settings_str := "" })]

/-- C1: with mappingConfig `client_id -> {remote_key: "Customer.Id",
in_remote: true, in_monday: true}`, externalData
`{Customer: {Id: "42"}}` and a Schema Map binding tag `client_id` to
the text column `col1`, the Column Value Payload is exactly
`{col1: "42"}`; and against any Schema Map without a `client_id` tag
the payload is exactly `{}` (entries without a schema match are
dropped without error). -/
theorem processMapping_example :
    processMappingCore exampleConfig exampleExternal exampleSchema
      = .ok [("col1", .vStr "42")]
    ∧ ∀ schema : List (String × ColumnInfo), alGet schema "client_id" = none →
        processMappingCore exampleConfig exampleExternal schema = .ok [] := by
  constructor
  · rfl
  · intro schema hnone
    show List.foldlM _ _ _ = _
    simp only [populateConfigValues, exampleConfig, List.map, List.foldlM, populateRule]
    simp [hnone]
    rfl

/-- Witness for C1 at the empty Schema Map. -/
theorem processMapping_example_witness :
    processMappingCore exampleConfig exampleExternal [] = .ok [] :=
  processMapping_example.2 [] rfl

/-- The description of the tag-extraction example (braces written with
escapes): Client {{{client_id}}} info {email}. -/
def exampleDescription : String :=
  "Client \x7b\x7b\x7b" ++ "client_id" ++ "\x7d\x7d\x7d info \x7b" ++ "email\x7d"

/-- C3: a column described by `Client {{{client_id}}} info {email}`
contributes exactly the two tags `client_id` and `email`, both bound
to that column's descriptor; and any tag of a later column overwrites
an earlier column's binding on collision. -/
theorem tag_extraction_schema_map :
    (∀ col : BoardColumn, col.description = exampleDescription →
        buildColumnMap [col] = [("client_id", colInfoOf col), ("email", colInfoOf col)])
    ∧ ∀ (ca cb : BoardColumn) (t : String), t ∈ extractTags cb.description →
        alGet (buildColumnMap [ca, cb]) t = some (colInfoOf cb) := by
  constructor
  · intro col h
    have e : buildColumnMap [col] =
        (extractTags col.description).foldl
          (fun m tag => alSet m tag (colInfoOf col)) [] := rfl
    rw [e, h]
    rfl
  · intro ca cb t ht
    have e : buildColumnMap [ca, cb] =
        (extractTags cb.description).foldl
          (fun m tag => alSet m tag (colInfoOf cb))
          ((extractTags ca.description).foldl
            (fun m tag => alSet m tag (colInfoOf ca)) []) := rfl
    rw [e]
    exact alGet_foldl_set_mem _ _ _ _ ht

/-- A concrete column carrying the example description. -/
def exampleColumn : BoardColumn :=
  { id := "col9", title := "Client", type := "text",
    description := exampleDescription, settings_str := "" }

/-- A pair of columns declaring the same tag, for the collision half. -/
def dupColumnA : BoardColumn :=
  { id := "colA", title := "A", type := "text",
    description := "\x7bdup\x7d", settings_str := "" }

/-- The later of the two colliding columns. -/
def dupColumnB : BoardColumn :=
  { id := "colB", title := "B", type := "numbers",
    description := "\x7b\x7bdup\x7d\x7d", settings_str := "" }

/-- Witness for C3 at concrete columns. -/
theorem tag_extraction_schema_map_witness :
    buildColumnMap [exampleColumn]
      = [("client_id", colInfoOf exampleColumn), ("email", colInfoOf exampleColumn)]
    ∧ alGet (buildColumnMap [dupColumnA, dupColumnB]) "dup" = some (colInfoOf dupColumnB) :=
  ⟨tag_extraction_schema_map.1 exampleColumn rfl,
   tag_extraction_schema_map.2 dupColumnA dupColumnB "dup" (by decide)⟩

/-- C5: the three documented evaluations of `sanitizeNumbers`, with
the produced rationals identified with their decimal readings
-1234.56 and 1.23. -/
theorem sanitizeNumbers_examples :
    (sanitizeNumbers (.vStr "-$1,234.56") = .ok (.vNum (mkRat (-30864) 25))
      ∧ (mkRat (-30864) 25 : ℚ) = -(1234 + (56 : ℚ) / 100))
    ∧ sanitizeNumbers (.vStr "abc") = .ok .vNull
    ∧ (sanitizeNumbers (.vStr "1.2.3") = .ok (.vNum (mkRat 123 100))
      ∧ (mkRat 123 100 : ℚ) = 1 + (23 : ℚ) / 100) := by
  refine ⟨⟨rfl, ?_⟩, rfl, rfl, ?_⟩
  · rw [Rat.mkRat_eq_divInt]
    norm_num [Rat.divInt_eq_div]
  · rw [Rat.mkRat_eq_divInt]
    norm_num [Rat.divInt_eq_div]

/-- C6 (code bug): `sanitizeDropdown` is not total — on the array
`[null]` the element conversion `v.toString()` throws a `TypeError`
instead of degrading, contradicting the never-throws contract. -/
theorem sanitizeDropdown_throws_on_null_element :
    sanitizeDropdown (.vArr [.vNull]) =
      .error (.typeError "Cannot read properties of null (reading toString)") := rfl

/-- A GraphQL response body whose error list is non-empty. -/
def rateLimitedResponse : GraphQLResult :=
  { rdata := some (.vObj [("boards", .vNull)]),
    errors := [{ message := "Rate limit exceeded for account" }] }

/-- A complexity-budget GraphQL error response. -/
def complexityResponse : GraphQLResult :=
  { rdata := none, errors := [{ message := "Complexity budget exhausted" }] }

/-- A non-retryable GraphQL error response. -/
def plainErrorResponse : GraphQLResult :=
  { rdata := none, errors := [{ message := "Field boardX not found" }] }

/-- C7 (code bug): the GraphQL check does construct the error carrying
the remote error list and partial data, marked retryable for
complexity / rate-limit texts — but `withRetry` catches and swallows
the throw, so the `query` operation resolves with `undefined` instead
of failing. -/
theorem graphql_error_swallowed :
    processQueryResult rateLimitedResponse =
      .error { message := "Monday GraphQL error: Rate limit exceeded for account",
               retryable := true,
               edata := rateLimitedResponse.rdata,
               errors := rateLimitedResponse.errors }
    ∧ processQueryResult complexityResponse =
      .error { message := "Monday GraphQL error: Complexity budget exhausted",
               retryable := true,
               edata := none,
               errors := complexityResponse.errors }
    ∧ processQueryResult plainErrorResponse =
      .error { message := "Monday GraphQL error: Field boardX not found",
               retryable := false,
               edata := none,
               errors := plainErrorResponse.errors }
    ∧ queryRun rateLimitedResponse = none
    ∧ queryRun complexityResponse = none
    ∧ queryRun plainErrorResponse = none :=
  ⟨rfl, rfl, rfl, rfl, rfl, rfl⟩

/-- A one-column remote board used by the cache counterexample. -/
def cacheColumn : BoardColumn :=
  { id := "c1", title := "T", type := "text",
    description := "\x7btag\x7d", settings_str := "" }

/-- Remote schema oracle of the cache counterexample. -/
def cacheRemote : String → List BoardColumn := fun _ => [cacheColumn]

/-- Mapper state after two consecutive gets of board 123. -/
def cacheAfterTwoGets : MapperState :=
  (fetchBoardColumnSettings cacheRemote
    (fetchBoardColumnSettings cacheRemote mapperInit "123").2 "123").2

/-- Mapper state after additionally invalidating board 123 and getting
it once more. -/
def cacheAfterInvalidateGet : MapperState :=
  (fetchBoardColumnSettings cacheRemote
    (clearColumnCache cacheAfterTwoGets (some "123")) "123").2

/-- C2 counterexample: after two gets one remote fetch has happened,
but invalidating the board and getting again leaves the remote fetch
count at one — the claimed "exactly one more fetch" after invalidation
is false, because `getBoardColumns` serves the columns from the API
client's own `board_columns` cache, which `clearColumnCache` does not
touch. -/
theorem schemaCache_invalidate_no_refetch :
    cacheAfterTwoGets.client.queryCount = 1
    ∧ cacheAfterInvalidateGet.client.queryCount = 1
    ∧ ¬ (cacheAfterInvalidateGet.client.queryCount
          = cacheAfterTwoGets.client.queryCount + 1) := by decide

/-- C2 amended: for every remote schema and board id, two consecutive
gets issue exactly one remote query (and one `getBoardColumns` call);
invalidation followed by another get makes one more `getBoardColumns`
call but zero additional remote queries — the schema is served from
the client-level cache, not re-fetched from the remote. -/
theorem schemaCache_fetch_counts (remote : String → List BoardColumn) (b : String) :
    ((fetchBoardColumnSettings remote
        (fetchBoardColumnSettings remote mapperInit b).2 b).2.client.queryCount = 1
      ∧ (fetchBoardColumnSettings remote
          (fetchBoardColumnSettings remote mapperInit b).2 b).2.gbcCalls = 1)
    ∧ (fetchBoardColumnSettings remote
        (clearColumnCache
          (fetchBoardColumnSettings remote
            (fetchBoardColumnSettings remote mapperInit b).2 b).2 (some b)) b).2.client.queryCount = 1
    ∧ (fetchBoardColumnSettings remote
        (clearColumnCache
          (fetchBoardColumnSettings remote
            (fetchBoardColumnSettings remote mapperInit b).2 b).2 (some b)) b).2.gbcCalls = 2 := by
  have h1 : fetchBoardColumnSettings remote mapperInit b
      = (buildColumnMap (remote b),
         { client := { board_columns := [(b, remote b)], queryCount := 1 },
           columnSettingsCache := [("board_" ++ b, buildColumnMap (remote b))],
           gbcCalls := 1 }) := by
    simp [fetchBoardColumnSettings, mapperInit, getBoardColumns, alGet, alSet]
  have h2 : fetchBoardColumnSettings remote
      ({ client := { board_columns := [(b, remote b)], queryCount := 1 },
         columnSettingsCache := [("board_" ++ b, buildColumnMap (remote b))],
         gbcCalls := 1 } : MapperState) b
      = (buildColumnMap (remote b),
         { client := { board_columns := [(b, remote b)], queryCount := 1 },
           columnSettingsCache := [("board_" ++ b, buildColumnMap (remote b))],
           gbcCalls := 1 }) := by
    simp [fetchBoardColumnSettings, alGet]
  have h3 : clearColumnCache
      ({ client := { board_columns := [(b, remote b)], queryCount := 1 },
         columnSettingsCache := [("board_" ++ b, buildColumnMap (remote b))],
         gbcCalls := 1 } : MapperState) (some b)
      = { client := { board_columns := [(b, remote b)], queryCount := 1 },
          columnSettingsCache := [], gbcCalls := 1 } := by
    by_cases hb : b = ""
    · subst hb; simp [clearColumnCache]
    · simp [clearColumnCache, hb, alRemove]
  have h4 : fetchBoardColumnSettings remote
      ({ client := { board_columns := [(b, remote b)], queryCount := 1 },
         columnSettingsCache := [], gbcCalls := 1 } : MapperState) b
      = (buildColumnMap (remote b),
         { client := { board_columns := [(b, remote b)], queryCount := 1 },
           columnSettingsCache := [("board_" ++ b, buildColumnMap (remote b))],
           gbcCalls := 2 }) := by
    simp [fetchBoardColumnSettings, getBoardColumns, alGet, alSet]
  rw [h1, h2, h3, h4]
  exact ⟨⟨rfl, rfl⟩, rfl, rfl⟩

/-- Field Rule reading `a.length` from the remote record, exercising
the `length` own property in the path walk. -/
def lengthRule : FieldRule :=
  { remote_key := some "a.length", in_monday := true, in_remote := true,
    value := .vStr "old" }

/-- External data whose `a` member is the empty string: every path
segment of `a.length` is defined (`""."length"` is `0`), but the empty
string is falsy. -/
def emptyStrExternal : JsValue :=
  .vObj [("a", .vStr "")]

/-- C4 counterexample: at external data `{a: ""}` and remote key
`a.length`, every path segment exists and is non-undefined at every
level (the spec-side walk resolves `0`), yet the code's guarded
`reduce` stops at the falsy intermediate `""` and the entry keeps its
previous value — refuting the claimed "overwritten exactly when each
path segment exists and is non-undefined at every level". -/
theorem populate_path_defined_but_kept :
    specResolve emptyStrExternal (jsSplit '.' "a.length") = some (.vNum (mkRat 0 1))
    ∧ getNestedValue emptyStrExternal "a.length" = none
    ∧ alGet (populateConfigValues [("k", lengthRule)] emptyStrExternal) "k"
        = some lengthRule :=
  ⟨rfl, rfl, rfl⟩

/-- C4 amended: a configuration entry with `in_remote` set and a
non-empty `remote_key` gets its `value` overwritten by the dot-path
resolution of the key against the external data whenever that
resolution is defined, and keeps its previous value otherwise — and
the resolution is defined exactly when, at every level, the current
value is truthy and the next path segment is a defined property (the
guarded walk).  This differs from plain segment-existence only at
falsy intermediates that still carry defined own properties, such as
the empty string's `length`. -/
theorem populate_path_resolution (cfg : List (String × FieldRule)) (ext : JsValue)
    (k : String) (rule : FieldRule) (p : String)
    (hlook : alGet cfg k = some rule) (hr : rule.in_remote = true)
    (hkey : rule.remote_key = some p) (hp : p ≠ "") :
    alGet (populateConfigValues cfg ext) k =
      some { rule with value := (getNestedValue ext p).getD rule.value }
    ∧ getNestedValue ext p = guardedResolve ext (jsSplit '.' p) := by
  refine ⟨?_, getNestedValue_eq_guardedResolve ext p⟩
  show alGet (cfg.map fun e => (e.1, populateRule ext e.2)) k = _
  rw [alGet_map, hlook]
  have hpr : populateRule ext rule =
      { rule with value := (getNestedValue ext p).getD rule.value } := by
    unfold populateRule
    rw [hkey]
    rw [if_pos ⟨hr, by simp [remoteKeySet, hp]⟩]
    cases hg : getNestedValue ext p with
    | some v => simp [hg]
    | none =>
        simp only [hg]
        cases rule
        subst hkey
        rfl
  rw [Option.map_some', hpr]

/-- The Field Rule of the path-resolution witness. -/
def pathRule : FieldRule :=
  { remote_key := some "a.b", in_monday := true, in_remote := true, value := .vStr "old" }

/-- The external data of the path-resolution witness. -/
def pathExternal : JsValue :=
  .vObj [("a", .vObj [("b", .vStr "new")])]

/-- External data whose `a` member is a one-element array, so that the
witness also exercises resolving the own `length` property
(`[5]["length"]` is `1`). -/
def arrayExternal : JsValue :=
  .vObj [("a", .vArr [.vNum (mkRat 5 1)])]

/-- Witness for C4 at two concrete configurations: an ordinary
object path, and an array `length` path. -/
theorem populate_path_resolution_witness :
    (alGet (populateConfigValues [("k", pathRule)] pathExternal) "k" =
      some { pathRule with value := (getNestedValue pathExternal "a.b").getD pathRule.value }
    ∧ getNestedValue pathExternal "a.b" = guardedResolve pathExternal (jsSplit '.' "a.b"))
    ∧ alGet (populateConfigValues [("k", lengthRule)] arrayExternal) "k" =
      some { lengthRule with
             value := (getNestedValue arrayExternal "a.length").getD lengthRule.value } :=
  ⟨populate_path_resolution [("k", pathRule)] pathExternal "k" pathRule "a.b"
     rfl rfl rfl (by decide),
   (populate_path_resolution [("k", lengthRule)] arrayExternal "k" lengthRule "a.length"
     rfl rfl rfl (by decide)).1⟩

/-- C8: whenever the pre-Gateway phase succeeds and the Gateway create
call itself throws, `logError` does not raise: it resolves with
`monday_id = 0`, an error string prefixed `***ERROR SAVING TO
MONDAY - ` embedding the constructed error name, and the original
failure message inside the diagnostic description. -/
theorem logError_degraded_path (gw : GatewayFn) (boardId : String) (columns : JsValue)
    (ed : ErrorData) (cv : List (String × JsValue)) (e : JsErr)
    (hbuild : buildPhase columns ed = .ok cv)
    (hgw : gw boardId (errorNameOf ed) cv = .error e) :
    logErrorRun gw boardId columns ed =
      (.ok { monday_id := .vNum 0,
             error := "***ERROR SAVING TO MONDAY - " ++ errorNameOf ed,
             description := "Failed to save: " ++ e.message }, 1) := by
  unfold logErrorRun
  rw [hbuild]
  show (Except.ok (tryPhase gw boardId (errorNameOf ed) cv ed), 1) = _
  unfold tryPhase
  rw [hgw]
  rfl

/-- Error data used by the logger witnesses. -/
def sampleErrorData : ErrorData :=
  { projectName := "ProjX", clientName := "Acme", workflow := "sync", error := "boom" }

/-- A Gateway whose create call always throws. -/
def failingGateway : GatewayFn := fun _ _ _ => .error (.jsError "network down")

/-- A columns object with all eight keys present (none of them bound
to a Monday column id, so the payload is empty). -/
def degradedColumns : JsValue :=
  .vObj [("client", .vObj []), ("client_warn_email", .vObj []), ("description", .vObj []),
         ("erreur", .vObj []), ("payload", .vObj []), ("workflow", .vObj []),
         ("projet", .vObj []), ("error_type", .vObj [])]

/-- Witness for C8 at a concrete failing Gateway. -/
theorem logError_degraded_path_witness :
    logErrorRun failingGateway "77" degradedColumns sampleErrorData =
      (.ok { monday_id := .vNum 0,
             error := "***ERROR SAVING TO MONDAY - " ++ errorNameOf sampleErrorData,
             description := "Failed to save: " ++ (JsErr.jsError "network down").message }, 1) :=
  logError_degraded_path failingGateway "77" degradedColumns sampleErrorData []
    (.jsError "network down") rfl rfl

/-- C9: the populate pass copies every Field Rule before assigning its
`value`, so after the call every rule object of the caller's
configuration reads back exactly as before. -/
theorem populateConfig_no_mutation (h : RuleHeap) (cfg : List (String × Nat))
    (ext : JsValue) (hvalid : ∀ e ∈ cfg, e.2 < h.next) :
    ∀ e ∈ cfg, heapRead (populateConfigValuesH h cfg ext).1 e.2 = heapRead h e.2 :=
  fun e he => populateH_reads_preserved cfg h ext e.2 (hvalid e he)

/-- Heap with one live Field Rule, for the no-mutation witness. -/
def mutationHeap : RuleHeap :=
  { mem := [(0, pathRule)], next := 1 }

/-- Witness for C9 at a one-entry configuration. -/
theorem populateConfig_no_mutation_witness :
    heapRead (populateConfigValuesH mutationHeap [("k", 0)] pathExternal).1 0
      = heapRead mutationHeap 0 :=
  populateConfig_no_mutation mutationHeap [("k", 0)] pathExternal (by decide)
    ("k", 0) (by decide)

/-- C10: `logError` assigns `value` on all eight fixed column keys
before its try block, so a columns object missing any of them makes
the call throw a `TypeError` without ever invoking the Gateway. -/
theorem logError_missing_column_key (gw : GatewayFn) (boardId : String)
    (fs : List (String × JsValue)) (ed : ErrorData) (k : String)
    (hk : k ∈ ["client", "client_warn_email", "description", "erreur", "payload",
               "workflow", "projet", "error_type"])
    (hm : alGet fs k = none) :
    ∃ m, logErrorRun gw boardId (.vObj fs) ed = (.error (.typeError m), 0) := by
  have hsteps : k ∈ (assignmentsOf ed (errorNameOf ed)).map Prod.fst := by
    simpa [assignmentsOf] using hk
  obtain ⟨m, hmm⟩ := assignAll_missing _ fs k hsteps hm
  have hbp : buildPhase (.vObj fs) ed = .error (.typeError m) := by
    unfold buildPhase
    rw [hmm]
    rfl
  refine ⟨m, ?_⟩
  unfold logErrorRun
  rw [hbp]

/-- Witness for C10 at an empty columns object. -/
theorem logError_missing_column_key_witness :
    ∃ m, logErrorRun failingGateway "77" (.vObj []) sampleErrorData
      = (.error (.typeError m), 0) :=
  logError_missing_column_key failingGateway "77" [] sampleErrorData "client"
    (by decide) rfl
